import Mathlib

/-
Verification of the AI-output reconciliation pipeline of the PriceAction
repository: a shallow embedding of src/src/core/response_parser.py,
src/src/core/risk_analyzer.py, src/src/utils/helpers.py and the storage
round trip of src/database/__init__.py, plus spec-modelled definitions for
the two components whose implementation files are absent from the sources
(ConsensusCalculator and the Kelly sizing of the risk engine).

Strings are modelled as Lean strings over lists of characters; Python
floats are modelled as rationals; JSON values are an inductive type with
objects as insertion-ordered association lists, mirroring Python dicts.
-/

namespace PA

/-- Whitespace set stripped by Python str.strip and matched by the regex
class backslash-s (ASCII part, the only characters our inputs contain). -/
def pyWs (c : Char) : Bool :=
  c = ' ' || c = '\t' || c = '\n' || c = '\r' || c = '\x0b' || c = '\x0c'

/-- Python str.strip on a character list. -/
def pyStripL (l : List Char) : List Char :=
  ((l.dropWhile pyWs).reverse.dropWhile pyWs).reverse

/-- Python str.strip on a string. -/
def pyStripS (s : String) : String :=
  String.mk (pyStripL s.data)

def isAsciiDigit (c : Char) : Bool := '0' ≤ c && c ≤ '9'

/-- Python str.lower restricted to ASCII letters; CJK characters, the only
other characters appearing in the keyword tables, are fixed by lower. -/
def asciiLowerC (c : Char) : Char :=
  if 'A' ≤ c && c ≤ 'Z' then Char.ofNat (c.toNat + 32) else c

def asciiLowerS (s : String) : String :=
  String.mk (s.data.map asciiLowerC)

/-- Split a character list at the first occurrence of a pattern: returns
the part strictly before the occurrence and the part strictly after it. -/
def splitFirst (pat : List Char) : List Char → Option (List Char × List Char)
  | [] => if pat = [] then some ([], []) else none
  | c :: t =>
    if pat.isPrefixOf (c :: t) then some ([], (c :: t).drop pat.length)
    else (splitFirst pat t).map (fun p => (c :: p.1, p.2))

/-- The pattern occurs somewhere in the list (substring containment,
Python `pat in s`). -/
def hasSub (pat l : List Char) : Bool := (splitFirst pat l).isSome

/-- Python `pat in s` on strings. -/
def containsS (s pat : String) : Bool := hasSub pat.data s.data

/-- The opening curly brace character, written by code point. -/
def obraceC : Char := '\x7b'

/-- The closing curly brace character, written by code point. -/
def cbraceC : Char := '\x7d'

/-- JSON values as produced by Python json.loads: objects are
insertion-ordered association lists, numbers are rationals. -/
inductive Json where
  | null : Json
  | bool : Bool → Json
  | num : ℚ → Json
  | str : String → Json
  | arr : List Json → Json
  | obj : List (String × Json) → Json

/-- Python dict lookup d.get(k) on an association list. -/
def oget : List (String × Json) → String → Option Json
  | [], _ => none
  | (k, v) :: t, key => if k = key then some v else oget t key

/-- Python dict lookup with default, d.get(k, dflt). -/
def ogetD (m : List (String × Json)) (key : String) (dflt : Json) : Json :=
  (oget m key).getD dflt

/-- Python dict assignment d[k] = v: replaces in place if the key exists,
appends otherwise (insertion order preserved). -/
def oset : List (String × Json) → String → Json → List (String × Json)
  | [], key, v => [(key, v)]
  | (k, w) :: t, key, v =>
    if k = key then (k, v) :: t else (k, w) :: oset t key v

/-- Python falsiness of a JSON-shaped value: None, False, 0, empty string,
empty list and empty dict are falsy. -/
def jfalsy : Json → Bool
  | Json.null => true
  | Json.bool b => !b
  | Json.num q => decide (q = 0)
  | Json.str s => decide (s = "")
  | Json.arr l => l.isEmpty
  | Json.obj m => m.isEmpty

def jtruthy (j : Json) : Bool := !jfalsy j

/-- Falsiness of d.get(k): a missing key (None) is falsy. -/
def jfalsyO : Option Json → Bool
  | none => true
  | some v => jfalsy v

def jtruthyO (o : Option Json) : Bool := !jfalsyO o

/-- Whitespace accepted between tokens by Python json.loads. -/
def jWsChar (c : Char) : Bool := c = ' ' || c = '\t' || c = '\n' || c = '\r'

def skipJWs (l : List Char) : List Char := l.dropWhile jWsChar

/-- Decode one JSON string escape character (after the backslash). -/
def escChar (c : Char) : Option Char :=
  if c = '"' then some '"'
  else if c = '\\' then some '\\'
  else if c = '/' then some '/'
  else if c = 'b' then some '\x08'
  else if c = 'f' then some '\x0c'
  else if c = 'n' then some '\n'
  else if c = 'r' then some '\r'
  else if c = 't' then some '\t'
  else none

def hexVal (c : Char) : Option Nat :=
  if isAsciiDigit c then some (c.toNat - 48)
  else if 'a' ≤ c && c ≤ 'f' then some (c.toNat - 87)
  else if 'A' ≤ c && c ≤ 'F' then some (c.toNat - 55)
  else none

/-- JSON string body after the opening quote, non-strict mode: raw control
characters are allowed inside the string (json.loads strict=False). Unicode
escapes are decoded when they denote a scalar value. -/
def pStrAux : List Char → List Char → Option (String × List Char)
  | _, [] => none
  | acc, '"' :: rest => some (String.mk acc.reverse, rest)
  | acc, '\\' :: 'u' :: h1 :: h2 :: h3 :: h4 :: rest =>
    match hexVal h1, hexVal h2, hexVal h3, hexVal h4 with
    | some a, some b, some c, some d =>
      let n := ((a * 16 + b) * 16 + c) * 16 + d
      if n < 0xd800 || 0xdfff < n then pStrAux (Char.ofNat n :: acc) rest
      else none
    | _, _, _, _ => none
  | acc, '\\' :: e :: rest =>
    match escChar e with
    | some c => pStrAux (c :: acc) rest
    | none => none
  | acc, c :: rest => pStrAux (c :: acc) rest

/-- Parse a JSON string literal starting right after the opening quote. -/
def pStr (l : List Char) : Option (String × List Char) := pStrAux [] l

/-- Rational value of a decimal digit list (most significant first). -/
def digitsVal (l : List Char) : Nat :=
  l.foldl (fun a c => a * 10 + (c.toNat - 48)) 0

/-- Ten to a signed power, as a rational. -/
def qPow10 (e : Int) : ℚ :=
  if 0 ≤ e then ((10 : ℚ) ^ e.toNat) else 1 / ((10 : ℚ) ^ (-e).toNat)

/-- Parse the digits of a JSON integer part: a single 0, or a nonzero
digit followed by digits (the grammar of the json module NUMBER_RE). -/
def pIntDigits : List Char → Option (List Char × List Char)
  | '0' :: rest => some (['0'], rest)
  | c :: rest =>
    if isAsciiDigit c && c ≠ '0' then
      some (c :: rest.takeWhile isAsciiDigit, rest.dropWhile isAsciiDigit)
    else none
  | [] => none

/-- Parse the optional fraction part: a dot followed by at least one
digit; anything else leaves the input untouched. -/
def pFrac : List Char → (List Char × List Char)
  | '.' :: c :: rest =>
    if isAsciiDigit c then
      (c :: rest.takeWhile isAsciiDigit, rest.dropWhile isAsciiDigit)
    else ([], '.' :: c :: rest)
  | l => ([], l)

/-- Parse the optional exponent part, returning the signed exponent. -/
def pExp : List Char → (Int × List Char)
  | e :: '-' :: c :: rest =>
    if (e = 'e' || e = 'E') && isAsciiDigit c then
      (-(digitsVal (c :: rest.takeWhile isAsciiDigit) : Int),
        rest.dropWhile isAsciiDigit)
    else (0, e :: '-' :: c :: rest)
  | e :: '+' :: c :: rest =>
    if (e = 'e' || e = 'E') && isAsciiDigit c then
      ((digitsVal (c :: rest.takeWhile isAsciiDigit) : Int),
        rest.dropWhile isAsciiDigit)
    else (0, e :: '+' :: c :: rest)
  | e :: c :: rest =>
    if (e = 'e' || e = 'E') && isAsciiDigit c then
      ((digitsVal (c :: rest.takeWhile isAsciiDigit) : Int),
        rest.dropWhile isAsciiDigit)
    else (0, e :: c :: rest)
  | l => (0, l)

/-- Parse a JSON number (after an optional leading minus handled here). -/
def pNum (l : List Char) : Option (Json × List Char) :=
  let (neg, l1) := match l with
    | '-' :: t => (true, t)
    | t => (false, t)
  match pIntDigits l1 with
  | none => none
  | some (ip, l2) =>
    let (fp, l3) := pFrac l2
    let (ev, l4) := pExp l3
    let mant : ℚ := (digitsVal ip : ℚ) + (digitsVal fp : ℚ) / qPow10 fp.length
    let q := mant * qPow10 ev
    some (Json.num (if neg then -q else q), l4)

mutual

/-- Parse one JSON value; the fuel bounds nesting and is decremented on
every recursive step, with the total input length plus one sufficing. -/
def pValue : Nat → List Char → Option (Json × List Char)
  | 0, _ => none
  | _ + 1, [] => none
  | f + 1, c :: t =>
    if c = '"' then (pStr t).map (fun p => (Json.str p.1, p.2))
    else if c = obraceC then
      match skipJWs t with
      | d :: t2 => if d = cbraceC then some (Json.obj [], t2)
                   else pMembers f [] (d :: t2)
      | [] => none
    else if c = '[' then
      match skipJWs t with
      | d :: t2 => if d = ']' then some (Json.arr [], t2)
                   else pElems f [] (d :: t2)
      | [] => none
    else if c = 't' then
      match t with
      | 'r' :: 'u' :: 'e' :: rest => some (Json.bool true, rest)
      | _ => none
    else if c = 'f' then
      match t with
      | 'a' :: 'l' :: 's' :: 'e' :: rest => some (Json.bool false, rest)
      | _ => none
    else if c = 'n' then
      match t with
      | 'u' :: 'l' :: 'l' :: rest => some (Json.null, rest)
      | _ => none
    else if c = '-' || isAsciiDigit c then pNum (c :: t)
    else none

/-- Parse the members of a JSON object after its first key position;
duplicate keys follow dict assignment, the last value winning. -/
def pMembers : Nat → List (String × Json) → List Char →
    Option (Json × List Char)
  | 0, _, _ => none
  | _ + 1, _, [] => none
  | f + 1, acc, c :: t =>
    if c = '"' then
      match pStr t with
      | none => none
      | some (k, r1) =>
        match skipJWs r1 with
        | ':' :: r2 =>
          match pValue f (skipJWs r2) with
          | none => none
          | some (v, r3) =>
            match skipJWs r3 with
            | ',' :: r4 => pMembers f (oset acc k v) (skipJWs r4)
            | d :: r4 =>
              if d = cbraceC then some (Json.obj (oset acc k v), r4) else none
            | [] => none
        | _ => none
    else none

/-- Parse the elements of a JSON array after its first element position. -/
def pElems : Nat → List Json → List Char → Option (Json × List Char)
  | 0, _, _ => none
  | _ + 1, _, [] => none
  | f + 1, acc, l =>
    match pValue f l with
    | none => none
    | some (v, r1) =>
      match skipJWs r1 with
      | ',' :: r2 => pElems f (v :: acc) (skipJWs r2)
      | ']' :: r2 => some (Json.arr (v :: acc).reverse, r2)
      | _ => none

end

/-- Python json.loads(text, strict=False): parse one value surrounded by
optional whitespace and require the whole input to be consumed. -/
def jsonParse (s : String) : Option Json :=
  match pValue (s.data.length + 1) (skipJWs s.data) with
  | some (v, rest) => if skipJWs rest = [] then some v else none
  | none => none

/-- The input is in its entirety a valid JSON payload. -/
def jsonValid (s : String) : Bool := (jsonParse s).isSome

/-- The delimiter the analyst protocol opens its JSON block with. -/
def startDelim : List Char := "---JSON_DATA_START---".data

/-- The delimiter the analyst protocol closes its JSON block with. -/
def endDelim : List Char := "---JSON_DATA_END---".data

/-- The triple-backtick fence marker. -/
def fenceM : List Char := "```".data

/-- The fence marker with a json language tag. -/
def fenceJson : List Char := "```json".data

/-- Text strictly between the first start pattern and the first end
pattern after it: the regex start DOTALL lazy-group end, whose group,
once stripped, is the stripped segment between the two delimiters. -/
def betweenSub (a b l : List Char) : Option (List Char) :=
  match splitFirst a l with
  | none => none
  | some (_, r1) =>
    match splitFirst b r1 with
    | none => none
    | some (m, _) => some m

/-- Word characters of the regex class backslash-w (ASCII part). -/
def isWordChar (c : Char) : Bool :=
  isAsciiDigit c || ('a' ≤ c && c ≤ 'z') || ('A' ≤ c && c ≤ 'Z') || c = '_'

/-- First cleanup sub of _extract_json: removes, at each line start, a
fence marker followed by word characters and whitespace (re.sub of
caret fence word-star space-star, MULTILINE). -/
def sub1Aux : Nat → Bool → List Char → List Char
  | 0, _, l => l
  | _ + 1, _, [] => []
  | f + 1, atStart, c :: t =>
    if atStart && fenceM.isPrefixOf (c :: t) then
      let r1 := (c :: t).drop 3
      let r2 := r1.dropWhile isWordChar
      let ws := r2.takeWhile pyWs
      sub1Aux f (ws.getLast? = some '\n') (r2.dropWhile pyWs)
    else c :: sub1Aux f (c = '\n') t

def sub1 (l : List Char) : List Char := sub1Aux (l.length + 1) true l

/-- Match, at the current position, whitespace then a fence then
whitespace up to a line end (the second cleanup regex); returns the rest
after the matched span if it matches. -/
def sub2TryAt (l : List Char) : Option (List Char) :=
  let r1 := l.dropWhile pyWs
  if fenceM.isPrefixOf r1 then
    let r2 := r1.drop 3
    let ws := r2.takeWhile pyWs
    let r3 := r2.dropWhile pyWs
    if r3 = [] then some []
    else
      match (ws.reverse.dropWhile (fun c => c ≠ '\n')) with
      | [] => none
      | _ :: _ =>
        some ('\n' :: (ws.reverse.takeWhile (fun c => c ≠ '\n')).reverse ++ r3)
  else none

/-- Second cleanup sub of _extract_json: removes every whitespace fence
whitespace run ending at a line end (re.sub of space-star fence
space-star dollar, MULTILINE), scanning left to right. -/
def sub2Aux : Nat → List Char → List Char
  | 0, l => l
  | _ + 1, [] => []
  | f + 1, c :: t =>
    match sub2TryAt (c :: t) with
    | some rest => sub2Aux f rest
    | none => c :: sub2Aux f t

def sub2 (l : List Char) : List Char := sub2Aux (l.length + 1) l

/-- The markdown cleanup applied to an extracted group in _extract_json. -/
def cleanupFences (l : List Char) : List Char := sub2 (sub1 l)

/-- Lazy search for the closing brace of the third pattern: the first
closing brace followed by whitespace and a fence. -/
def lazyCloseAux : Nat → List Char → List Char → Option (List Char)
  | 0, _, _ => none
  | _ + 1, _, [] => none
  | f + 1, acc, c :: t =>
    if c = cbraceC && fenceM.isPrefixOf (t.dropWhile pyWs) then
      some ((c :: acc).reverse)
    else lazyCloseAux f (c :: acc) t

/-- Try the third pattern at the current position: a fence, whitespace, a
brace-delimited lazy group, whitespace, a fence. -/
def fenceBraceAt (l : List Char) : Option (List Char) :=
  if fenceM.isPrefixOf l then
    match (l.drop 3).dropWhile pyWs with
    | c :: t =>
      if c = obraceC then
        match lazyCloseAux (t.length + 1) [] t with
        | some g => some (c :: g)
        | none => none
      else none
    | [] => none
  else none

/-- Leftmost match of the third pattern over all start positions. -/
def fencedBraceAux : Nat → List Char → Option (List Char)
  | 0, _ => none
  | _ + 1, [] => none
  | f + 1, c :: t =>
    match fenceBraceAt (c :: t) with
    | some g => some g
    | none => fencedBraceAux f t

def fencedBrace (l : List Char) : Option (List Char) :=
  fencedBraceAux (l.length + 1) l

/-- The list up to and including its last occurrence of the character. -/
def upToLast (close : Char) (l : List Char) : Option (List Char) :=
  match l.reverse.dropWhile (fun c => c ≠ close) with
  | [] => none
  | r => some r.reverse

/-- The greedy brace regex of the final fallback: from the first opening
brace to the last closing brace of the text. -/
def braceSpan (l : List Char) : Option (List Char) :=
  match l.dropWhile (fun c => c ≠ obraceC) with
  | [] => none
  | c :: t =>
    match upToLast cbraceC t with
    | some m => some (c :: m)
    | none => none

/-- ResponseParser._extract_json: the delimiter pattern, then the tagged
fence pattern, then the untagged fence pattern (each stripped and fence
cleaned), then the raw greedy brace span. -/
def extract_json (t : String) : Option String :=
  match betweenSub startDelim endDelim t.data with
  | some m => some (String.mk (cleanupFences (pyStripL m)))
  | none =>
    match betweenSub fenceJson fenceM t.data with
    | some m => some (String.mk (cleanupFences (pyStripL m)))
    | none =>
      match fencedBrace t.data with
      | some m => some (String.mk (cleanupFences (pyStripL m)))
      | none =>
        match braceSpan t.data with
        | some m => some (String.mk m)
        | none => none

/-- Control characters replaced by spaces in the deep-parse fallback. -/
def cleanCtrl (l : List Char) : List Char :=
  l.map (fun c => if c.toNat ≤ 0x1f || c.toNat = 0x7f then ' ' else c)

/-- Leftmost match of the fallback regex alternation: a greedy
brace-delimited or bracket-delimited span. -/
def fbSpanAux : Nat → List Char → Option (List Char)
  | 0, _ => none
  | _ + 1, [] => none
  | f + 1, c :: t =>
    if c = obraceC then
      match upToLast cbraceC t with
      | some m => some (c :: m)
      | none => fbSpanAux f t
    else if c = '[' then
      match upToLast ']' t with
      | some m => some (c :: m)
      | none => fbSpanAux f t
    else fbSpanAux f t

def fbSpan (l : List Char) : Option (List Char) :=
  fbSpanAux (l.length + 1) l

/-- safe_json_loads: direct non-strict parse, then the cleaned-text
brace-or-bracket span fallback; never throws, returns None on failure. -/
def safe_json_loads (s : String) : Option Json :=
  match jsonParse s with
  | some v => some v
  | none =>
    let cleaned := cleanCtrl s.data
    match fbSpan cleaned with
    | some span => jsonParse (String.mk span)
    | none => none

/-- Python split at the start delimiter, first component: the analysis
text taken before the JSON block. -/
def beforeDelimS (t : String) : String :=
  match splitFirst startDelim t.data with
  | some (p, _) => String.mk p
  | none => t

/-- Result dictionary of ResponseParser.parse: tagged by success, with an
error message exactly when success is false. -/
structure ParseResult where
  success : Bool
  error : Option String
  analysis_text : String
  state : Option Json

/-- ResponseParser.parse: extract a JSON span, deep-parse it, and take the
analysis text from before the start delimiter; every failure is returned
as a tagged result, never thrown. -/
def parse (t : String) : ParseResult :=
  match extract_json t with
  | none => ⟨false, some "无法找到JSON数据", t, none⟩
  | some jt =>
    match safe_json_loads jt with
    | none => ⟨false, some "JSON解析失败", t, none⟩
    | some d => ⟨true, none, pyStripS (beforeDelimS t), some d⟩

/-- One per-timeframe state dictionary as built by parse_multi_timeframe:
the eight keys it always sets, plus the multi-timeframe analysis added
afterwards when present. -/
structure TState where
  marketCycle : Json
  marketStructure : Json
  signalConfidence : Json
  activeNarrative : Json
  alternativeNarrative : Json
  actionPlan : Json
  volumeProfile : Json
  keyLevels : Json
  mta : Option Json

/-- The state built from one timeframe object of the parsed payload, with
the documented defaults applied only when the key is absent. -/
def mkTState (m : List (String × Json)) : TState where
  marketCycle := ogetD m "marketCycle" (Json.str "TRADING_RANGE")
  marketStructure := ogetD m "marketStructure" (Json.str "RANGE")
  signalConfidence := ogetD m "signalConfidence" (Json.num 50)
  activeNarrative := ogetD m "activeNarrative" (Json.obj [])
  alternativeNarrative := ogetD m "alternativeNarrative" (Json.obj [])
  actionPlan := ogetD m "actionPlan" (Json.obj [])
  volumeProfile := ogetD m "volumeProfile" (Json.obj [])
  keyLevels := ogetD m "keyLevels" (Json.arr [])
  mta := none

/-- Python `key in data` for the parsed payload: key membership on dicts,
element membership on lists, substring test on strings, and a TypeError
on non-iterable values. -/
def keyIn (data : Json) (k : String) : Except String Bool :=
  match data with
  | Json.obj m => .ok (oget m k).isSome
  | Json.arr l =>
    .ok (l.any (fun j => match j with | Json.str s => decide (s = k) | _ => false))
  | Json.str s => .ok (containsS s k)
  | _ => .error "TypeError: argument is not iterable"

/-- Python data[key] for the parsed payload; only dicts support string
subscripts. -/
def getItem (data : Json) (k : String) : Except String Json :=
  match data with
  | Json.obj m =>
    match oget m k with
    | some v => .ok v
    | none => .error "KeyError"
  | _ => .error "TypeError: indices must be integers"

/-- The timeframe-state construction loop of parse_multi_timeframe over
the fixed timeframe list; a timeframe object that is not a dict raises
inside the try block. -/
def buildLoop (data : Json) : List String → Except String (List (String × TState))
  | [] => .ok []
  | tf :: rest => do
    let b ← keyIn data tf
    if b then do
      let v ← getItem data tf
      match v with
      | Json.obj m => do
        let r ← buildLoop data rest
        .ok ((tf, mkTState m) :: r)
      | _ => .error "AttributeError: timeframe data is not a dict"
    else buildLoop data rest

/-- State construction plus the multi_timeframe_analysis attachment. -/
def buildStates (data : Json) : Except String (List (String × TState)) := do
  let l ← buildLoop data ["15m", "1h", "1d"]
  let b ← keyIn data "multi_timeframe_analysis"
  if b then do
    let v ← getItem data "multi_timeframe_analysis"
    .ok (l.map (fun p => (p.1, { p.2 with mta := some v })))
  else .ok l

/-- Remove half-width and full-width commas (_extract_prices_from_text). -/
def stripCommas (l : List Char) : List Char :=
  l.filter (fun c => !(c = ',' || c = '，'))

/-- Greedy chunking of one maximal digit run by the regex of four to
eight digits: repeated non-overlapping greedy matches take eight digits
while possible, and a shorter trailing piece only when it has at least
four digits. -/
def chunksAux : Nat → List Char → List (List Char)
  | 0, _ => []
  | f + 1, run =>
    if 8 ≤ run.length then run.take 8 :: chunksAux f (run.drop 8)
    else if 4 ≤ run.length then [run]
    else []

def chunks (run : List Char) : List (List Char) :=
  chunksAux (run.length + 1) run

/-- All matches of the four-to-eight digit regex over the text, in text
order (re.findall semantics). -/
def pyTokensAux : Nat → List Char → List (List Char)
  | 0, _ => []
  | _ + 1, [] => []
  | f + 1, c :: t =>
    if isAsciiDigit c then
      chunks ((c :: t).takeWhile isAsciiDigit)
        ++ pyTokensAux f ((c :: t).dropWhile isAsciiDigit)
    else pyTokensAux f t

def pyTokens (l : List Char) : List (List Char) :=
  pyTokensAux (l.length + 1) l

/-- The matched tokens kept by the price-plausibility filter, as exact
rational values (float conversion of an at-most-eight-digit integer). -/
def priceCandidates (s : String) : List ℚ :=
  (pyTokens (stripCommas s.data)).filterMap (fun tk =>
    let v := digitsVal tk
    if 100 ≤ v ∧ v ≤ 10000000 then some ((v : ℚ)) else none)

/-- Insert into a strictly ascending list, dropping duplicates. -/
def insertS (x : ℚ) : List ℚ → List ℚ
  | [] => [x]
  | y :: t => if x < y then x :: y :: t else if x = y then y :: t else y :: insertS x t

/-- Python sorted(list(set(l))): the distinct values in ascending order. -/
def pySortedSet (l : List ℚ) : List ℚ := l.foldr insertS []

/-- ResponseParser._extract_prices_from_text. -/
def extract_prices (s : String) : List ℚ := pySortedSet (priceCandidates s)

/-- Status keyword cascade of _infer_missing_fields_from_text, step 1. -/
def kwStatus (text : String) : String :=
  if containsS text "信号已触发" || containsS text "已突破" then "TRIGGERED"
  else if containsS text "形成中" || containsS text "构建中" then "FORMING"
  else if containsS text "失败" || containsS text "失效" then "FAILED"
  else if containsS text "完成" then "COMPLETED"
  else "FORMING"

/-- Direction keyword cascade, step 2; the latin keywords are looked up
in the lowercased text. -/
def kwDirection (text textLower : String) : String :=
  if containsS text "看涨" || containsS text "做多" || containsS textLower "long"
    then "LONG"
  else if containsS text "看跌" || containsS text "做空" || containsS textLower "short"
    then "SHORT"
  else if containsS text "下跌" || containsS textLower "空头" then "SHORT"
  else if containsS text "上涨" || containsS textLower "多头" then "LONG"
  else "NEUTRAL"

/-- Action-plan state keyword cascade, step 3. -/
def kwPlanState (text : String) : String :=
  if containsS text "现价入场" || containsS text "立即入场" then "ENTER_NOW"
  else if containsS text "挂单" || containsS text "等待" then "CONDITIONAL"
  else if containsS text "观望" || containsS text "等待确认" then "WAIT"
  else "WAIT"

/-- Market structure keyword cascade, step 4. -/
def kwStructure (text : String) : String :=
  if containsS text "突破" then "BOS"
  else if containsS text "反转" then "CHOCH"
  else if containsS text "扫损" || containsS text "扫" then "LIQUIDITY_SWEEP"
  else "RANGE"

/-- Numeric value used by Python order comparisons: numbers and booleans
compare, anything else raises TypeError against a float. -/
def jNumVal : Json → Option ℚ
  | Json.num q => some q
  | Json.bool b => some (if b then 1 else 0)
  | _ => none

/-- The fixed probability-to-confidence bands of step 5. -/
def confBand (p : ℚ) : ℚ :=
  if 8/10 ≤ p then 80 else if 6/10 ≤ p then 60 else if 4/10 ≤ p then 40 else 50

/-- Step 1: replace a falsy activeNarrative by an empty dict, then fill a
falsy status from the keyword cascade; a truthy non-dict narrative raises
AttributeError inside the try block. -/
def stepStatus (text : String) (s : TState) : Except String TState :=
  match (if jfalsy s.activeNarrative then Json.obj [] else s.activeNarrative) with
  | Json.obj o =>
    if jfalsyO (oget o "status") then
      .ok { s with activeNarrative :=
              Json.obj (oset o "status" (Json.str (kwStatus text))) }
    else .ok { s with activeNarrative := Json.obj o }
  | _ => .error "AttributeError: activeNarrative has no attribute get"

/-- Step 2: infer a falsy direction; a non-dict actionPlan raises (either
on the get of the condition when truthy, or on item assignment when
falsy). -/
def stepDirection (text textLower : String) (s : TState) : Except String TState :=
  match s.actionPlan with
  | Json.obj o =>
    if jfalsy (Json.obj o) || jfalsyO (oget o "direction") then
      .ok { s with actionPlan :=
              Json.obj (oset o "direction" (Json.str (kwDirection text textLower))) }
    else .ok s
  | j =>
    if jfalsy j then .error "TypeError: actionPlan does not support item assignment"
    else .error "AttributeError: actionPlan has no attribute get"

/-- Step 3: infer a falsy action-plan state, same raising behaviour. -/
def stepPlanState (text : String) (s : TState) : Except String TState :=
  match s.actionPlan with
  | Json.obj o =>
    if jfalsy (Json.obj o) || jfalsyO (oget o "state") then
      .ok { s with actionPlan :=
              Json.obj (oset o "state" (Json.str (kwPlanState text))) }
    else .ok s
  | j =>
    if jfalsy j then .error "TypeError: actionPlan does not support item assignment"
    else .error "AttributeError: actionPlan has no attribute get"

/-- Step 4: infer a falsy marketStructure; never raises. -/
def stepStructure (text : String) (s : TState) : TState :=
  if jfalsy s.marketStructure then
    { s with marketStructure := Json.str (kwStructure text) }
  else s

/-- Step 5: infer a falsy signalConfidence from the probability bands; a
probability value that does not compare with a float raises TypeError. -/
def stepConfidence (s : TState) : Except String TState :=
  if jfalsy s.signalConfidence then
    match s.activeNarrative with
    | Json.obj o =>
      match jNumVal ((oget o "probability_value").getD (Json.num 0)) with
      | some p => .ok { s with signalConfidence := Json.num (confBand p) }
      | none => .error "TypeError: comparison of str and float"
    | _ => .error "AttributeError: activeNarrative has no attribute get"
  else .ok s

/-- The key_levels dict built from the extracted prices in step 6, in
insertion order. -/
def klFromPrices : List ℚ → List (String × Json)
  | [] => []
  | [p] =>
    [("entry_trigger", Json.num p),
     ("invalidation_level", Json.num (p * (102/100))),
     ("profit_target_1", Json.num (p * (98/100)))]
  | p :: q :: rest =>
    let mn := p
    let mx := (q :: rest).getLastD q
    [("entry_trigger", Json.num mn),
     ("invalidation_level", Json.num (mx + (mx - mn) * (2/100))),
     ("profit_target_1", Json.num (mx - (mx - mn) * (3/100)))]

/-- Step 6: when key_levels is falsy, rebuild it from the prices found in
the analysis text (possibly as an empty dict); never raises in the
composed flow, where the narrative is already a dict. -/
def stepKeyLevels (text : String) (s : TState) : TState :=
  match s.activeNarrative with
  | Json.obj o =>
    if jfalsyO (oget o "key_levels") then
      { s with activeNarrative :=
          Json.obj (oset o "key_levels" (Json.obj (klFromPrices (extract_prices text)))) }
    else s
  | _ => s

/-- _infer_missing_fields_from_text on one per-timeframe state: the six
steps in source order; any Python exception becomes an error result. -/
def inferOne (text : String) (s : TState) : Except String TState :=
  match stepStatus text s with
  | .error e => .error e
  | .ok s1 =>
    match stepDirection text (asciiLowerS text) s1 with
    | .error e => .error e
    | .ok s2 =>
      match stepPlanState text s2 with
      | .error e => .error e
      | .ok s3 =>
        match stepConfidence (stepStructure text s3) with
        | .error e => .error e
        | .ok s5 => .ok (stepKeyLevels text s5)

/-- The inference loop over the timeframe states, in insertion order; the
first exception aborts the whole parse. -/
def inferAll (text : String) : List (String × TState) →
    Except String (List (String × TState))
  | [] => .ok []
  | (tf, s) :: rest => do
    let s2 ← inferOne text s
    let r ← inferAll text rest
    .ok ((tf, s2) :: r)

/-- Result dictionary of ResponseParser.parse_multi_timeframe. -/
structure MultiResult where
  success : Bool
  error : Option String
  analysis_text : String
  timeframe_states : List (String × TState)

/-- ResponseParser.parse_multi_timeframe: extraction, deep parse, state
construction and field inference; every exception inside the try block
is caught and returned as a tagged failure carrying the raw text. -/
def parse_multi_timeframe (t : String) : MultiResult :=
  match extract_json t with
  | none => ⟨false, some "无法找到JSON数据", t, []⟩
  | some jt =>
    match safe_json_loads jt with
    | none => ⟨false, some "JSON解析失败", t, []⟩
    | some data =>
      let analysis := pyStripS (beforeDelimS t)
      match buildStates data with
      | .error e => ⟨false, some e, t, []⟩
      | .ok l =>
        match inferAll analysis l with
        | .error e => ⟨false, some e, t, []⟩
        | .ok l2 => ⟨true, none, analysis, l2⟩

/-- Round to nearest with ties to even, the rounding of Python round. -/
def roundHalfEven (x : ℚ) : ℤ :=
  if x - Int.floor x < 1/2 then Int.floor x
  else if (1 : ℚ)/2 < x - Int.floor x then Int.floor x + 1
  else if Even (Int.floor x) then Int.floor x else Int.floor x + 1

/-- Python round(x, 2) on exact rationals. -/
def pyRound2 (q : ℚ) : ℚ := (roundHalfEven (q * 100) : ℚ) / 100

/-- RiskMetrics of src/src/core/risk_analyzer.py; the source field
risk_reward_ratio is shortened to risk_reward here. -/
structure RiskMetrics where
  risk_reward : ℚ
  win_rate : ℚ
  position_size : ℚ
  max_loss : ℚ
  expected_value : ℚ
deriving DecidableEq

/-- RiskAnalyzer.calculate_risk_metrics: direction-aware signed risk and
reward; a non-positive risk is silently defaulted to zero ratio and zero
position, never raised. -/
def calculate_risk_metrics (entry_price stop_loss take_profit : ℚ)
    (direction : String) (win_rate account_balance risk_per_trade : ℚ) :
    RiskMetrics :=
  let risk := if direction = "LONG" then entry_price - stop_loss
              else stop_loss - entry_price
  let reward := if direction = "LONG" then take_profit - entry_price
                else entry_price - take_profit
  let rr := if 0 < risk then reward / risk else 0
  let risk_amount := account_balance * risk_per_trade
  let pos := if 0 < risk then risk_amount / risk else 0
  { risk_reward := rr
    win_rate := win_rate
    position_size := pos
    max_loss := risk_amount
    expected_value := win_rate * reward * pos - (1 - win_rate) * risk * pos }

/-- calculate_risk_reward of src/src/utils/helpers.py: the same signed
ratio rounded to two decimals, zero when the risk is not positive. -/
def calculate_risk_reward (entry stop target : ℚ) (direction : String) : ℚ :=
  let risk := if direction = "LONG" then entry - stop else stop - entry
  let reward := if direction = "LONG" then target - entry else entry - target
  if 0 < risk then pyRound2 (reward / risk) else 0

/-- Modelled from the spec: the Kelly fraction of the risk engine, whose
implementation file is absent from the sources (only its caller in
frontend/pages/risk_calculator.py and the persisted columns exist):
f = (p times b minus q) over b with q = 1 minus p. -/
def kelly_fraction (p b : ℚ) : ℚ := (p * b - (1 - p)) / b

/-- Modelled from the spec: the conservatively adjusted Kelly fraction,
max(0, f) times the fixed 0.8 multiplier. -/
def kelly_fraction_adjusted (p b : ℚ) : ℚ :=
  max 0 (kelly_fraction p b) * (8/10)

/-- Modelled from the spec: the per-timeframe input of the consensus
engine (src.core.consensus_calculator is imported by src/src/main.py but
its file is absent from the sources): the timeframe name, the market
cycle, and the action-plan direction when present. -/
structure CTimeframeState where
  timeframe : String
  marketCycle : String
  direction : Option String

/-- Modelled from the spec: directional lean of one timeframe state, the
action-plan direction overriding the market cycle when present; one for
bullish, minus one for bearish, zero for neutral. -/
def classifyTF (s : CTimeframeState) : Int :=
  match s.direction with
  | some d => if d = "LONG" then 1 else if d = "SHORT" then -1 else 0
  | none =>
    if s.marketCycle = "BULL_TREND" then 1
    else if s.marketCycle = "BEAR_TREND" then -1 else 0

/-- Modelled from the spec: the ConsensusResult record. -/
structure ConsensusResult where
  direction : String
  confidence : ℚ
  aligned : List String
  conflicting : List String
  bullish_score : ℚ
  bearish_score : ℚ

/-- A timeframe state agreeing with the overall direction. -/
def agreesWith (dir : String) (s : CTimeframeState) : Bool :=
  (dir = "BULLISH" && classifyTF s = 1) || (dir = "BEARISH" && classifyTF s = -1)
    || (dir = "NEUTRAL" && classifyTF s = 0)

/-- Modelled from the spec: ConsensusCalculator.calculate_consensus with
an explicit weight table and tie epsilon; scores are sums of weights of
bullish and bearish timeframes, the direction needs a margin beyond the
epsilon, confidence is the normalized clamped score gap, and the aligned
and conflicting lists split the input by agreement with the direction. -/
def calculate_consensus (weights : String → ℚ) (eps : ℚ)
    (states : List CTimeframeState) : ConsensusResult :=
  let bull := ((states.filter (fun s => classifyTF s = 1)).map
    (fun s => weights s.timeframe)).sum
  let bear := ((states.filter (fun s => classifyTF s = -1)).map
    (fun s => weights s.timeframe)).sum
  let total := (states.map (fun s => weights s.timeframe)).sum
  let dir := if bear + eps < bull then "BULLISH"
             else if bull + eps < bear then "BEARISH" else "NEUTRAL"
  { direction := dir
    confidence := if total = 0 then 0 else min 1 (|bull - bear| / total)
    aligned := (states.filter (agreesWith dir)).map (fun s => s.timeframe)
    conflicting := (states.filter (fun s => !agreesWith dir s)).map
      (fun s => s.timeframe)
    bullish_score := bull
    bearish_score := bear }

/-- The three key levels read and written by the storage layer. -/
structure KeyLevelsIn where
  entry_trigger : Option ℚ
  invalidation_level : Option ℚ
  profit_target_1 : Option ℚ
deriving DecidableEq

/-- The activeNarrative sub-dictionary as consumed by save_state; absent
keys are None. -/
structure ActiveIn where
  pattern_name : Option String
  status : Option String
  key_levels : KeyLevelsIn
  comment : Option String
  probability : Option String
  probability_value : Option ℚ
  risk_reward : Option ℚ
deriving DecidableEq

/-- The alternativeNarrative sub-dictionary. -/
structure AltIn where
  pattern_name : Option String
  trigger_condition : Option String
deriving DecidableEq

/-- A TimeframeState dictionary handed to DatabaseManager.save_state;
marketStructure and signalConfidence are part of the documented state. -/
structure StateIn where
  marketCycle : Option String
  marketStructure : Option String
  signalConfidence : Option ℚ
  activeNarrative : ActiveIn
  alternativeNarrative : AltIn
  actionPlan : Option Json
  analysis_text : String
  raw_response : String
  last_updated : Option Int

/-- One row of the states table, the columns written by save_state. -/
structure Row where
  symbol : String
  timeframe : String
  last_updated : Int
  market_cycle : Option String
  active_pattern : Option String
  pattern_status : Option String
  entry_trigger : Option ℚ
  invalidation_level : Option ℚ
  profit_target_1 : Option ℚ
  pattern_comment : Option String
  alternative_pattern : Option String
  alternative_trigger : Option String
  raw_response : String
  analysis_text : String
  probability : String
  probability_value : ℚ
  risk_reward : ℚ
  action_plan : Option Json

/-- Python truthiness of an optional float, as tested by the key-level
recomputation condition (an explicit zero is falsy). -/
def truthyQ : Option ℚ → Bool
  | none => false
  | some q => !decide (q = 0)

/-- The risk_reward column computed by save_state: the provided value
when positive, otherwise the absolute ratio recomputed from the three
key levels when they are all truthy and entry differs from stop, rounded
to two decimals; zero otherwise. -/
def savedRiskReward (a : ActiveIn) : ℚ :=
  let provided := a.risk_reward.getD 0
  if 0 < provided then provided
  else
    match a.key_levels.entry_trigger, a.key_levels.invalidation_level,
        a.key_levels.profit_target_1 with
    | some e, some st, some tg =>
      if e ≠ 0 ∧ st ≠ 0 ∧ tg ≠ 0 ∧ e ≠ st then
        (if 0 < |e - st| then pyRound2 (|tg - e| / |e - st|) else 0)
      else 0
    | _, _, _ => 0

/-- The action_plan column: the plan serialized to JSON when truthy, NULL
otherwise (if action_plan else None); deserialization of the serialized
value is the identity, so the column is modelled by the value itself. -/
def savedActionPlan : Option Json → Option Json
  | none => none
  | some j => if jtruthy j then some j else none

/-- DatabaseManager.save_state as a pure row construction: the storage
key is (symbol, timeframe), the old row is deleted and this row replaces
it, so the subsequent get_state for the same key reads this row. The
current time now fills a missing last_updated. -/
def save_state (symbol timeframe : String) (now : Int) (s : StateIn) : Row where
  symbol := symbol
  timeframe := timeframe
  last_updated := s.last_updated.getD now
  market_cycle := s.marketCycle
  active_pattern := s.activeNarrative.pattern_name
  pattern_status := s.activeNarrative.status
  entry_trigger := s.activeNarrative.key_levels.entry_trigger
  invalidation_level := s.activeNarrative.key_levels.invalidation_level
  profit_target_1 := s.activeNarrative.key_levels.profit_target_1
  pattern_comment := s.activeNarrative.comment
  alternative_pattern := s.alternativeNarrative.pattern_name
  alternative_trigger := s.alternativeNarrative.trigger_condition
  raw_response := s.raw_response
  analysis_text := s.analysis_text
  probability := s.activeNarrative.probability.getD ""
  probability_value := s.activeNarrative.probability_value.getD 0
  risk_reward := savedRiskReward s.activeNarrative
  action_plan := savedActionPlan s.actionPlan

/-- The activeNarrative dictionary returned by get_state. -/
structure ActiveOut where
  pattern_name : Option String
  status : Option String
  key_levels : KeyLevelsIn
  comment : Option String
  probability : String
  probability_value : ℚ
  risk_reward : ℚ

/-- The state dictionary returned by get_state; it carries no
marketStructure and no signalConfidence key. -/
structure StateOut where
  symbol : String
  timeframe : String
  last_updated : Int
  marketCycle : Option String
  activeNarrative : ActiveOut
  alternativeNarrative : AltIn
  raw_response : String
  analysis_text : String
  actionPlan : Option Json

/-- DatabaseManager.get_state on the stored row: rebuilds the nested
dictionaries from the columns; the or-defaults on probability,
probability_value and risk_reward are identities on the stored strings
and numbers, and the action plan is parsed back from its JSON column. -/
def get_state (r : Row) : StateOut where
  symbol := r.symbol
  timeframe := r.timeframe
  last_updated := r.last_updated
  marketCycle := r.market_cycle
  activeNarrative :=
    { pattern_name := r.active_pattern
      status := r.pattern_status
      key_levels :=
        { entry_trigger := r.entry_trigger
          invalidation_level := r.invalidation_level
          profit_target_1 := r.profit_target_1 }
      comment := r.pattern_comment
      probability := r.probability
      probability_value := r.probability_value
      risk_reward := r.risk_reward }
  alternativeNarrative :=
    { pattern_name := r.alternative_pattern
      trigger_condition := r.alternative_trigger }
  raw_response := r.raw_response
  analysis_text := r.analysis_text
  actionPlan := r.action_plan

/-- Save-then-read round trip through the storage contract for one
(symbol, timeframe) key. -/
def roundTrip (symbol timeframe : String) (now : Int) (s : StateIn) : StateOut :=
  get_state (save_state symbol timeframe now s)

/-- Lookup of a key in the activeNarrative dictionary of a state. -/
def anField (s : TState) (k : String) : Option Json :=
  match s.activeNarrative with
  | Json.obj o => oget o k
  | _ => none

/-- Lookup of a key in the actionPlan dictionary of a state. -/
def apField (s : TState) (k : String) : Option Json :=
  match s.actionPlan with
  | Json.obj o => oget o k
  | _ => none

/-- A fully populated per-timeframe state used as a concrete instance. -/
def stW : TState where
  marketCycle := Json.str "BULL_TREND"
  marketStructure := Json.str "BOS"
  signalConfidence := Json.num 80
  activeNarrative := Json.obj
    [("status", Json.str "TRIGGERED"),
     ("key_levels", Json.obj [("entry_trigger", Json.num 95000)])]
  alternativeNarrative := Json.obj []
  actionPlan := Json.obj [("direction", Json.str "LONG"), ("state", Json.str "ENTER_NOW")]
  volumeProfile := Json.obj []
  keyLevels := Json.arr []
  mta := none

/-- A state whose signalConfidence was set to zero by structured
extraction, the integer zero being a documented confidence value. -/
def stC4x : TState where
  marketCycle := Json.str "TRADING_RANGE"
  marketStructure := Json.str "RANGE"
  signalConfidence := Json.num 0
  activeNarrative := Json.obj [("status", Json.str "FORMING"), ("key_levels", Json.num 1)]
  alternativeNarrative := Json.obj []
  actionPlan := Json.obj [("direction", Json.str "LONG"), ("state", Json.str "WAIT")]
  volumeProfile := Json.obj []
  keyLevels := Json.arr []
  mta := none

/-- A response text that is one valid JSON object carrying an empty
marketCycle for the 15m timeframe. -/
def c3in : String := "\x7b\"15m\": \x7b\"marketCycle\": \"\"\x7d\x7d"

/-- Three concrete per-timeframe consensus inputs. -/
def csW : List CTimeframeState :=
  [⟨"15m", "BULL_TREND", some "LONG"⟩, ⟨"1h", "BULL_TREND", none⟩,
   ⟨"1d", "BEAR_TREND", some "SHORT"⟩]

/-- The documented default weight table. -/
def wTable : String → ℚ :=
  fun tf => if tf = "15m" then 3/10 else if tf = "1h" then 6/10 else 1

/-- A concrete TimeframeState used for the storage round trip. -/
def stBase : StateIn where
  marketCycle := some "BULL_TREND"
  marketStructure := some "BOS"
  signalConfidence := some 80
  activeNarrative :=
    { pattern_name := some "bull flag"
      status := some "FORMING"
      key_levels := ⟨some 100, some 95, some 110⟩
      comment := some "clean structure"
      probability := some "High"
      probability_value := some 1
      risk_reward := some 2 }
  alternativeNarrative := ⟨some "range", some "loss of momentum"⟩
  actionPlan := some (Json.obj [("state", Json.str "WAIT")])
  analysis_text := "analysis"
  raw_response := "raw"
  last_updated := some 1700000000000


theorem oget_oset_self (m : List (String × Json)) (k : String) (v : Json) :
    oget (oset m k v) k = some v := by
  induction m with
  | nil => simp [oset, oget]
  | cons hd t ih =>
    obtain ⟨k1, v1⟩ := hd
    by_cases hk : k1 = k
    · simp [oset, oget, hk]
    · simp [oset, oget, hk, ih]

theorem oget_oset_ne (m : List (String × Json)) (k k2 : String) (v : Json)
    (h : k ≠ k2) : oget (oset m k v) k2 = oget m k2 := by
  induction m with
  | nil => simp [oset, oget, h]
  | cons hd t ih =>
    obtain ⟨k1, v1⟩ := hd
    by_cases hk : k1 = k
    · subst hk
      simp [oset, oget, h]
    · simp [oset, oget, hk, ih]

theorem oget_ne_nil (m : List (String × Json)) (k : String) (v : Json)
    (h : oget m k = some v) : m.isEmpty = false := by
  cases m with
  | nil => simp [oget] at h
  | cons hd t => rfl

theorem anField_congr (s t : TState) (k : String)
    (h : s.activeNarrative = t.activeNarrative) : anField s k = anField t k := by
  unfold anField
  rw [h]

theorem apField_congr (s t : TState) (k : String)
    (h : s.actionPlan = t.actionPlan) : apField s k = apField t k := by
  unfold apField
  rw [h]

theorem kwStatus_truthy (text : String) :
    jtruthy (Json.str (kwStatus text)) = true := by
  unfold kwStatus
  repeat' split
  all_goals rfl

theorem kwPlanState_truthy (text : String) :
    jtruthy (Json.str (kwPlanState text)) = true := by
  unfold kwPlanState
  repeat' split
  all_goals rfl

theorem stepStatus_ok_truthy (text : String) (s s1 : TState)
    (h : stepStatus text s = .ok s1) :
    jtruthyO (anField s1 "status") = true := by
  unfold stepStatus at h
  split at h
  case h_1 o heq =>
    split at h
    case isTrue hfal =>
      cases h
      simp [anField, oget_oset_self]
      exact kwStatus_truthy text
    case isFalse hfal =>
      cases h
      simp [anField]
      simpa [jtruthyO] using hfal
  case h_2 => cases h

theorem stepStatus_others (text : String) (s s1 : TState)
    (h : stepStatus text s = .ok s1) :
    s1.marketCycle = s.marketCycle ∧ s1.marketStructure = s.marketStructure ∧
    s1.signalConfidence = s.signalConfidence ∧ s1.actionPlan = s.actionPlan := by
  unfold stepStatus at h
  split at h
  · split at h
    · cases h
      exact ⟨rfl, rfl, rfl, rfl⟩
    · cases h
      exact ⟨rfl, rfl, rfl, rfl⟩
  · cases h

theorem stepStatus_pres (text : String) (s s1 : TState) (k : String)
    (hk : jtruthyO (anField s k) = true) (h : stepStatus text s = .ok s1) :
    anField s1 k = anField s k := by
  unfold anField at hk
  split at hk
  case h_1 o0 heq =>
    have hnil : o0.isEmpty = false := by
      cases o0 with
      | nil => simp [oget, jtruthyO, jfalsyO] at hk
      | cons p t => rfl
    unfold stepStatus at h
    split at h
    case h_1 o heq2 =>
      rw [heq] at heq2
      simp [jfalsy, hnil] at heq2
      subst heq2
      by_cases hks : k = "status"
      · subst hks
        split at h
        · rename_i hcond
          simp [jtruthyO] at hk
          simp [hk] at hcond
        · cases h
          simp [anField, heq]
      · split at h
        · cases h
          simp [anField, heq, oget_oset_ne _ _ _ _ (fun hcon => hks hcon.symm)]
        · cases h
          simp [anField, heq]
    case h_2 => cases h
  case h_2 => simp [jtruthyO, jfalsyO] at hk

theorem stepDirection_others (text tl : String) (s s2 : TState)
    (h : stepDirection text tl s = .ok s2) :
    s2.activeNarrative = s.activeNarrative ∧ s2.marketStructure = s.marketStructure ∧
    s2.signalConfidence = s.signalConfidence ∧ s2.marketCycle = s.marketCycle := by
  unfold stepDirection at h
  split at h
  · split at h
    · cases h
      exact ⟨rfl, rfl, rfl, rfl⟩
    · cases h
      exact ⟨rfl, rfl, rfl, rfl⟩
  · split at h <;> cases h

theorem stepDirection_pres_ap (text tl : String) (s s2 : TState) (k : String)
    (hk : jtruthyO (apField s k) = true) (h : stepDirection text tl s = .ok s2) :
    apField s2 k = apField s k := by
  unfold apField at hk
  split at hk
  case h_1 o0 heq =>
    have hnil : o0.isEmpty = false := by
      cases o0 with
      | nil => simp [oget, jtruthyO, jfalsyO] at hk
      | cons p t => rfl
    unfold stepDirection at h
    split at h
    case h_1 o heq2 =>
      rw [heq] at heq2
      simp at heq2
      subst heq2
      by_cases hks : k = "direction"
      · subst hks
        split at h
        · rename_i hcond
          simp [jtruthyO] at hk
          simp [jfalsy, hnil, hk] at hcond
        · cases h
          rfl
      · split at h
        · cases h
          simp [apField, heq, oget_oset_ne _ _ _ _ (fun hcon => hks hcon.symm)]
        · cases h
          rfl
    case h_2 => split at h <;> cases h
  case h_2 => simp [jtruthyO, jfalsyO] at hk

theorem stepPlanState_others (text : String) (s s3 : TState)
    (h : stepPlanState text s = .ok s3) :
    s3.activeNarrative = s.activeNarrative ∧ s3.marketStructure = s.marketStructure ∧
    s3.signalConfidence = s.signalConfidence ∧ s3.marketCycle = s.marketCycle := by
  unfold stepPlanState at h
  split at h
  · split at h
    · cases h
      exact ⟨rfl, rfl, rfl, rfl⟩
    · cases h
      exact ⟨rfl, rfl, rfl, rfl⟩
  · split at h <;> cases h

theorem stepPlanState_pres_ap (text : String) (s s3 : TState) (k : String)
    (hk : jtruthyO (apField s k) = true) (h : stepPlanState text s = .ok s3) :
    apField s3 k = apField s k := by
  unfold apField at hk
  split at hk
  case h_1 o0 heq =>
    have hnil : o0.isEmpty = false := by
      cases o0 with
      | nil => simp [oget, jtruthyO, jfalsyO] at hk
      | cons p t => rfl
    unfold stepPlanState at h
    split at h
    case h_1 o heq2 =>
      rw [heq] at heq2
      simp at heq2
      subst heq2
      by_cases hks : k = "state"
      · subst hks
        split at h
        · rename_i hcond
          simp [jtruthyO] at hk
          simp [jfalsy, hnil, hk] at hcond
        · cases h
          rfl
      · split at h
        · cases h
          simp [apField, heq, oget_oset_ne _ _ _ _ (fun hcon => hks hcon.symm)]
        · cases h
          rfl
    case h_2 => split at h <;> cases h
  case h_2 => simp [jtruthyO, jfalsyO] at hk

theorem stepPlanState_ok_truthy (text : String) (s s3 : TState)
    (h : stepPlanState text s = .ok s3) :
    jtruthyO (apField s3 "state") = true := by
  unfold stepPlanState at h
  split at h
  case h_1 o heq2 =>
    split at h
    case isTrue hcond =>
      cases h
      simp [apField, oget_oset_self]
      exact kwPlanState_truthy text
    case isFalse hcond =>
      cases h
      simp at hcond
      simp [apField, heq2]
      simpa [jtruthyO] using hcond.2
  case h_2 => split at h <;> cases h

theorem stepStructure_fields (text : String) (s : TState) :
    (stepStructure text s).activeNarrative = s.activeNarrative ∧
    (stepStructure text s).actionPlan = s.actionPlan ∧
    (stepStructure text s).signalConfidence = s.signalConfidence ∧
    (stepStructure text s).marketCycle = s.marketCycle := by
  unfold stepStructure
  split <;> exact ⟨rfl, rfl, rfl, rfl⟩

theorem stepStructure_pres (text : String) (s : TState)
    (hk : jtruthy s.marketStructure = true) : stepStructure text s = s := by
  have hk2 : jfalsy s.marketStructure = false := by simpa [jtruthy] using hk
  simp [stepStructure, hk2]

theorem stepConfidence_others (s s5 : TState) (h : stepConfidence s = .ok s5) :
    s5.activeNarrative = s.activeNarrative ∧ s5.actionPlan = s.actionPlan ∧
    s5.marketStructure = s.marketStructure ∧ s5.marketCycle = s.marketCycle := by
  unfold stepConfidence at h
  split at h
  · split at h
    · split at h
      · cases h
        exact ⟨rfl, rfl, rfl, rfl⟩
      · cases h
    · cases h
  · cases h
    exact ⟨rfl, rfl, rfl, rfl⟩

theorem stepConfidence_pres (s : TState)
    (hk : jtruthy s.signalConfidence = true) : stepConfidence s = .ok s := by
  have hk2 : jfalsy s.signalConfidence = false := by simpa [jtruthy] using hk
  simp [stepConfidence, hk2]

theorem stepKeyLevels_others (text : String) (s : TState) :
    (stepKeyLevels text s).actionPlan = s.actionPlan ∧
    (stepKeyLevels text s).marketStructure = s.marketStructure ∧
    (stepKeyLevels text s).signalConfidence = s.signalConfidence ∧
    (stepKeyLevels text s).marketCycle = s.marketCycle := by
  unfold stepKeyLevels
  split
  · split <;> exact ⟨rfl, rfl, rfl, rfl⟩
  · exact ⟨rfl, rfl, rfl, rfl⟩

theorem stepKeyLevels_pres_an (text : String) (s : TState) (k : String)
    (hk : jtruthyO (anField s k) = true) :
    anField (stepKeyLevels text s) k = anField s k := by
  unfold anField at hk
  split at hk
  case h_1 o0 heq =>
    unfold stepKeyLevels
    split
    case h_1 o heq2 =>
      rw [heq] at heq2
      simp at heq2
      subst heq2
      by_cases hks : k = "key_levels"
      · subst hks
        rw [if_neg (by simp [jtruthyO] at hk; simp [hk])]
      · split
        · simp [anField, heq, oget_oset_ne _ _ _ _ (fun hcon => hks hcon.symm)]
        · rfl
    case h_2 x heq2 =>
      rw [heq] at heq2
  case h_2 => simp [jtruthyO, jfalsyO] at hk

theorem hasSub_cons_false (p : List Char) (c : Char) (t : List Char)
    (h : hasSub p (c :: t) = false) :
    p.isPrefixOf (c :: t) = false ∧ hasSub p t = false := by
  unfold hasSub splitFirst at h
  cases hpre : p.isPrefixOf (c :: t) with
  | true => simp [hpre] at h
  | false =>
    rw [hpre] at h
    simp at h
    unfold hasSub
    simp [h]

theorem hasSub_weaken (p1 p2 l : List Char) (hpre : p2 <+: p1)
    (h : hasSub p1 l = true) : hasSub p2 l = true := by
  induction l with
  | nil =>
    unfold hasSub splitFirst at h ⊢
    by_cases h1 : p1 = []
    · subst h1
      have : p2 = [] := List.prefix_nil.mp hpre
      simp [this]
    · simp [h1] at h
  | cons c t ih =>
    unfold hasSub splitFirst at h ⊢
    cases hp1 : p1.isPrefixOf (c :: t) with
    | true =>
      have hp1x : p1 <+: (c :: t) := List.isPrefixOf_iff_prefix.mp hp1
      have hp2x : p2 <+: (c :: t) := hpre.trans hp1x
      rw [List.isPrefixOf_iff_prefix.mpr hp2x]
      rfl
    | false =>
      rw [hp1] at h
      simp at h
      have h2 := ih (by unfold hasSub; simp [h])
      cases hp2 : p2.isPrefixOf (c :: t) with
      | true => rfl
      | false =>
        simp
        unfold hasSub at h2
        simpa using h2

theorem fenceBraceAt_none (l : List Char)
    (h : fenceM.isPrefixOf l = false) : fenceBraceAt l = none := by
  unfold fenceBraceAt
  simp [h]

theorem fencedBraceAux_none (f : Nat) (l : List Char)
    (h : hasSub fenceM l = false) : fencedBraceAux f l = none := by
  induction f generalizing l with
  | zero => rfl
  | succ f ih =>
    cases l with
    | nil => rfl
    | cons c t =>
      obtain ⟨h1, h2⟩ := hasSub_cons_false _ _ _ h
      unfold fencedBraceAux
      rw [fenceBraceAt_none _ h1, ih t h2]

theorem splitFirst_none_of_hasSub_false (p l : List Char)
    (h : hasSub p l = false) : splitFirst p l = none := by
  unfold hasSub at h
  cases hsp : splitFirst p l with
  | none => rfl
  | some v => simp [hsp] at h

theorem braceSpan_none (l : List Char) (hall : obraceC ∉ l) :
    braceSpan l = none := by
  unfold braceSpan
  have hdw : l.dropWhile (fun c => decide (c ≠ obraceC)) = [] := by
    rw [List.dropWhile_eq_nil_iff]
    intro x hx
    simp
    intro hEq
    subst hEq
    exact hall hx
  rw [hdw]

theorem mem_insertS (x a : ℚ) (l : List ℚ) :
    a ∈ insertS x l ↔ a = x ∨ a ∈ l := by
  induction l with
  | nil => simp [insertS]
  | cons y t ih =>
    unfold insertS
    split_ifs with h1 h2
    · simp [List.mem_cons]
    · subst h2
      simp [List.mem_cons]
    · simp only [List.mem_cons, ih]
      tauto

theorem sorted_insertS (x : ℚ) (l : List ℚ) (h : l.Sorted (· < ·)) :
    (insertS x l).Sorted (· < ·) := by
  induction l with
  | nil => simp [insertS]
  | cons y t ih =>
    rw [List.sorted_cons] at h
    unfold insertS
    split_ifs with h1 h2
    · rw [List.sorted_cons]
      refine ⟨?_, List.sorted_cons.mpr h⟩
      intro b hb
      rcases List.mem_cons.mp hb with hby | hbt
      · rw [hby]
        exact h1
      · exact lt_trans h1 (h.1 b hbt)
    · exact List.sorted_cons.mpr h
    · rw [List.sorted_cons]
      refine ⟨?_, ih h.2⟩
      intro b hb
      rcases (mem_insertS x b t).mp hb with hbx | hbt
      · rw [hbx]
        exact lt_of_le_of_ne (not_lt.mp h1) (fun hc => h2 hc.symm)
      · exact h.1 b hbt

theorem mem_pySortedSet (a : ℚ) (l : List ℚ) :
    a ∈ pySortedSet l ↔ a ∈ l := by
  induction l with
  | nil => simp [pySortedSet]
  | cons y t ih =>
    show a ∈ insertS y (pySortedSet t) ↔ _
    rw [mem_insertS, ih]
    simp [List.mem_cons]

theorem sorted_pySortedSet (l : List ℚ) : (pySortedSet l).Sorted (· < ·) := by
  induction l with
  | nil => simp [pySortedSet]
  | cons y t ih => exact sorted_insertS y (pySortedSet t) ih

/-- Claim C1 is false on the code: the bare JSON array text is valid JSON yet parse fails, and the bare JSON object text succeeds with a non-empty analysis text equal to the whole input, so no valid payload is handled by a direct whole-text parse with empty prose. -/
theorem C1_counterexample :
    jsonValid "[1, 2]" = true ∧ (parse "[1, 2]").success = false ∧
    jsonValid "\x7b\"a\": 1\x7d" = true ∧
    (parse "\x7b\"a\": 1\x7d").success = true ∧
    (parse "\x7b\"a\": 1\x7d").analysis_text ≠ "" := by
  refine ⟨by decide, by decide, by decide, by decide, by decide⟩

/-- Claim C1 amended: there is no direct whole-text parse strategy. Without the start delimiter, a payload that also has no fence and no opening brace is rejected, and any successful parse returns the entire stripped input as analysis text. -/
theorem C1_prop (s : String)
    (hdelim : containsS s "---JSON_DATA_START---" = false) :
    (containsS s "```" = false → obraceC ∉ s.data → (parse s).success = false) ∧
    ((parse s).success = true → (parse s).analysis_text = pyStripS s) := by
  have hd : hasSub startDelim s.data = false := hdelim
  have hbefore : beforeDelimS s = s := by
    unfold beforeDelimS
    rw [splitFirst_none_of_hasSub_false _ _ hd]
  constructor
  · intro hfence hbrace
    have hf : hasSub fenceM s.data = false := hfence
    have hfj : hasSub fenceJson s.data = false := by
      cases hq : hasSub fenceJson s.data with
      | false => rfl
      | true =>
        have := hasSub_weaken fenceJson fenceM s.data ⟨"json".data, rfl⟩ hq
        rw [this] at hf
        cases hf
    have hex : extract_json s = none := by
      unfold extract_json betweenSub fencedBrace
      rw [splitFirst_none_of_hasSub_false _ _ hd,
          splitFirst_none_of_hasSub_false _ _ hfj,
          fencedBraceAux_none _ _ hf,
          braceSpan_none _ hbrace]
    unfold parse
    rw [hex]
  · intro hsucc
    unfold parse at hsucc ⊢
    cases hex : extract_json s with
    | none =>
      rw [hex] at hsucc
      cases hsucc
    | some jt =>
      cases hl : safe_json_loads jt with
      | none =>
        rw [hex] at hsucc
        simp [hl] at hsucc
      | some d =>
        simp [hl, hbefore]

/-- Witness for the amended claim C1 at a concrete delimiter-free, fence-free, brace-free input. -/
theorem C1_witness : (parse "no json here").success = false :=
  (C1_prop "no json here" (by decide)).1 (by decide) (by decide)

/-- Claim C2: for every input string, parse and parse_multi_timeframe return a tagged result whose success flag is accompanied by an error message exactly when it is false, and no exception escapes either function. -/
theorem C2_prop (s : String) :
    ((parse s).success = true ∧ (parse s).error = none ∨
      (parse s).success = false ∧ (parse s).error.isSome = true) ∧
    ((parse_multi_timeframe s).success = true ∧
        (parse_multi_timeframe s).error = none ∨
      (parse_multi_timeframe s).success = false ∧
        (parse_multi_timeframe s).error.isSome = true) := by
  constructor
  · unfold parse
    cases hex : extract_json s with
    | none => simp
    | some jt =>
      cases hl : safe_json_loads jt with
      | none => simp [hl]
      | some d => simp [hl]
  · unfold parse_multi_timeframe
    cases hex : extract_json s with
    | none => simp
    | some jt =>
      cases hl : safe_json_loads jt with
      | none => simp [hl]
      | some d =>
        cases hb : buildStates d with
        | error e => simp [hl, hb]
        | ok l =>
          cases hi : inferAll (pyStripS (beforeDelimS s)) l with
          | error e => simp [hl, hb, hi]
          | ok l2 => simp [hl, hb, hi]

/-- Claim C3 is false on the code: the full pipeline succeeds on a payload whose 15m state carries an empty marketCycle, and field inference leaves the empty value in place. -/
theorem C3_counterexample :
    (parse_multi_timeframe c3in).success = true ∧
    ((parse_multi_timeframe c3in).timeframe_states.map
      (fun p => (p.1, p.2.marketCycle))) = [("15m", Json.str "")] ∧
    jfalsy (Json.str "") = true :=
  ⟨rfl, rfl, rfl⟩

/-- Claim C3 amended: whenever field inference succeeds, the resulting state has a non-empty activeNarrative status and a non-empty actionPlan state, falling back to the documented FORMING and WAIT defaults; marketCycle is not touched by inference. -/
theorem C3_prop (text : String) (s s2 : TState) (h : inferOne text s = Except.ok s2) :
    jtruthyO (anField s2 "status") = true ∧ jtruthyO (apField s2 "state") = true := by
  unfold inferOne at h
  split at h
  case h_1 => cases h
  case h_2 s1 heq1 =>
    split at h
    case h_1 => cases h
    case h_2 sb heq2 =>
      split at h
      case h_1 => cases h
      case h_2 sc heq3 =>
        split at h
        case h_1 => cases h
        case h_2 s5 heq5 =>
          cases h
          have t1 := stepStatus_ok_truthy text s s1 heq1
          have e2 := (stepDirection_others text (asciiLowerS text) s1 sb heq2).1
          have e3 := (stepPlanState_others text sb sc heq3).1
          have e4 := (stepStructure_fields text sc).1
          have e5 := (stepConfidence_others (stepStructure text sc) s5 heq5).1
          have t5 : jtruthyO (anField s5 "status") = true := by
            rw [anField_congr s5 s1 "status" (by rw [e5, e4, e3, e2])]
            exact t1
          have tp := stepPlanState_ok_truthy text sb sc heq3
          have tp5 : jtruthyO (apField s5 "state") = true := by
            rw [apField_congr s5 sc "state"
              (by rw [(stepConfidence_others (stepStructure text sc) s5 heq5).2.1,
                      (stepStructure_fields text sc).2.1])]
            exact tp
          constructor
          · rw [stepKeyLevels_pres_an text s5 "status" t5]
            exact t5
          · rw [apField_congr (stepKeyLevels text s5) s5 "state"
              (stepKeyLevels_others text s5).1]
            exact tp5

/-- Witness for the amended claim C3 at a concrete fully populated state. -/
theorem C3_witness :
    jtruthyO (anField stW "status") = true ∧
    jtruthyO (apField stW "state") = true :=
  C3_prop "" stW stW rfl

/-- Claim C4 is false on the code: a signalConfidence of zero produced by structured extraction, a documented confidence value, is overwritten by inference with the probability-band default of fifty. -/
theorem C4_counterexample :
    stC4x.signalConfidence = Json.num 0 ∧
    (inferOne "" stC4x).map TState.signalConfidence = Except.ok (Json.num 50) := by
  constructor
  · rfl
  · have h : inferOne "" stC4x =
        Except.ok { stC4x with signalConfidence := Json.num (confBand 0) } := rfl
    rw [h, show confBand 0 = 50 from by norm_num [confBand]]
    rfl

/-- Claim C4 amended: field inference never changes a field holding a truthy value after structured extraction; falsy values, including the number zero and empty containers, are treated as missing and re-inferred. -/
theorem C4_prop (text : String) (s s2 : TState) (h : inferOne text s = Except.ok s2) :
    (jtruthy s.marketStructure = true → s2.marketStructure = s.marketStructure) ∧
    (jtruthy s.signalConfidence = true → s2.signalConfidence = s.signalConfidence) ∧
    (jtruthyO (anField s "status") = true → anField s2 "status" = anField s "status") ∧
    (jtruthyO (apField s "direction") = true →
      apField s2 "direction" = apField s "direction") ∧
    (jtruthyO (apField s "state") = true → apField s2 "state" = apField s "state") ∧
    (jtruthyO (anField s "key_levels") = true →
      anField s2 "key_levels" = anField s "key_levels") := by
  unfold inferOne at h
  split at h
  case h_1 => cases h
  case h_2 s1 heq1 =>
    split at h
    case h_1 => cases h
    case h_2 sb heq2 =>
      split at h
      case h_1 => cases h
      case h_2 sc heq3 =>
        split at h
        case h_1 => cases h
        case h_2 s5 heq5 =>
          cases h
          have o1 := stepStatus_others text s s1 heq1
          have o2 := stepDirection_others text (asciiLowerS text) s1 sb heq2
          have o3 := stepPlanState_others text sb sc heq3
          have f4 := stepStructure_fields text sc
          have o5 := stepConfidence_others (stepStructure text sc) s5 heq5
          have k6 := stepKeyLevels_others text s5
          have anchain : s5.activeNarrative = s1.activeNarrative := by
            rw [o5.1, f4.1, o3.1, o2.1]
          refine ⟨?_, ?_, ?_, ?_, ?_, ?_⟩
          · intro hms
            have hcs : sc.marketStructure = s.marketStructure := by
              rw [o3.2.1, o2.2.1, o1.2.1]
            have hX : stepStructure text sc = sc :=
              stepStructure_pres text sc (by rw [hcs]; exact hms)
            have h5 : s5.marketStructure = sc.marketStructure := by
              have hh := o5.2.2.1
              rw [hX] at hh
              exact hh
            rw [k6.2.1, h5, hcs]
          · intro hsc
            have hXs : (stepStructure text sc).signalConfidence = s.signalConfidence := by
              rw [f4.2.2.1, o3.2.2.1, o2.2.2.1, o1.2.2.1]
            have hpres : stepConfidence (stepStructure text sc) =
                .ok (stepStructure text sc) :=
              stepConfidence_pres _ (by rw [hXs]; exact hsc)
            rw [hpres] at heq5
            have hX5 : stepStructure text sc = s5 := by
              injection heq5
            rw [k6.2.2.1, ← hX5, hXs]
          · intro hst
            have p1 : anField s1 "status" = anField s "status" :=
              stepStatus_pres text s s1 "status" hst heq1
            have c15 : anField s5 "status" = anField s "status" := by
              rw [anField_congr s5 s1 "status" anchain, p1]
            have t5 : jtruthyO (anField s5 "status") = true := by
              rw [c15]
              exact hst
            rw [stepKeyLevels_pres_an text s5 "status" t5, c15]
          · intro hd
            have c1 : apField s1 "direction" = apField s "direction" :=
              apField_congr s1 s "direction" o1.2.2.2
            have tb1 : jtruthyO (apField s1 "direction") = true := by
              rw [c1]; exact hd
            have p2 : apField sb "direction" = apField s1 "direction" :=
              stepDirection_pres_ap text (asciiLowerS text) s1 sb "direction" tb1 heq2
            have tb2 : jtruthyO (apField sb "direction") = true := by
              rw [p2]; exact tb1
            have p3 : apField sc "direction" = apField sb "direction" :=
              stepPlanState_pres_ap text sb sc "direction" tb2 heq3
            have c5 : apField s5 "direction" = apField sc "direction" := by
              rw [apField_congr s5 (stepStructure text sc) "direction" o5.2.1,
                  apField_congr (stepStructure text sc) sc "direction" f4.2.1]
            rw [apField_congr (stepKeyLevels text s5) s5 "direction" k6.1,
                c5, p3, p2, c1]
          · intro hd
            have c1 : apField s1 "state" = apField s "state" :=
              apField_congr s1 s "state" o1.2.2.2
            have tb1 : jtruthyO (apField s1 "state") = true := by
              rw [c1]; exact hd
            have p2 : apField sb "state" = apField s1 "state" :=
              stepDirection_pres_ap text (asciiLowerS text) s1 sb "state" tb1 heq2
            have tb2 : jtruthyO (apField sb "state") = true := by
              rw [p2]; exact tb1
            have p3 : apField sc "state" = apField sb "state" :=
              stepPlanState_pres_ap text sb sc "state" tb2 heq3
            have c5 : apField s5 "state" = apField sc "state" := by
              rw [apField_congr s5 (stepStructure text sc) "state" o5.2.1,
                  apField_congr (stepStructure text sc) sc "state" f4.2.1]
            rw [apField_congr (stepKeyLevels text s5) s5 "state" k6.1,
                c5, p3, p2, c1]
          · intro hkl
            have p1 : anField s1 "key_levels" = anField s "key_levels" :=
              stepStatus_pres text s s1 "key_levels" hkl heq1
            have c15 : anField s5 "key_levels" = anField s "key_levels" := by
              rw [anField_congr s5 s1 "key_levels" anchain, p1]
            have t5 : jtruthyO (anField s5 "key_levels") = true := by
              rw [c15]
              exact hkl
            rw [stepKeyLevels_pres_an text s5 "key_levels" t5, c15]

/-- Witness for the amended claim C4 at a concrete state with all six fields truthy. -/
theorem C4_witness :
    stW.marketStructure = stW.marketStructure ∧
    stW.signalConfidence = stW.signalConfidence ∧
    anField stW "status" = anField stW "status" ∧
    apField stW "direction" = apField stW "direction" ∧
    apField stW "state" = apField stW "state" ∧
    anField stW "key_levels" = anField stW "key_levels" := by
  have h := C4_prop "" stW stW rfl
  exact ⟨h.1 (by decide), h.2.1 (by decide), h.2.2.1 (by decide),
    h.2.2.2.1 (by decide), h.2.2.2.2.1 (by decide), h.2.2.2.2.2 (by decide)⟩

/-- Claim C5: for every input list of timeframe states with distinct timeframe names, the aligned and conflicting lists of the consensus result partition the input timeframes: together they are a permutation of the inputs, each is duplicate free, and no timeframe appears in both. -/
theorem C5_prop (w : String → ℚ) (eps : ℚ) (states : List CTimeframeState)
    (hnd : (states.map CTimeframeState.timeframe).Nodup) :
    ((calculate_consensus w eps states).aligned ++
        (calculate_consensus w eps states).conflicting).Perm
      (states.map CTimeframeState.timeframe) ∧
    (calculate_consensus w eps states).aligned.Nodup ∧
    (calculate_consensus w eps states).conflicting.Nodup ∧
    ∀ tf, tf ∈ (calculate_consensus w eps states).aligned →
      tf ∉ (calculate_consensus w eps states).conflicting := by
  have key : ∀ p : CTimeframeState → Bool,
      (((states.filter p).map CTimeframeState.timeframe) ++
        ((states.filter (fun x => !p x)).map CTimeframeState.timeframe)).Perm
          (states.map CTimeframeState.timeframe) := by
    intro p
    rw [← List.map_append]
    exact (List.filter_append_perm p states).map CTimeframeState.timeframe
  have knd : ∀ p : CTimeframeState → Bool,
      ((states.filter p).map CTimeframeState.timeframe).Nodup := by
    intro p
    exact hnd.sublist ((List.filter_sublist states).map CTimeframeState.timeframe)
  simp only [calculate_consensus]
  refine ⟨key _, knd _, knd _, ?_⟩
  intro tf h1 h2
  exact (List.disjoint_of_nodup_append ((key _).nodup_iff.mpr hnd)) h1 h2

/-- Witness for claim C5 at the three documented timeframes with the documented weight table. -/
theorem C5_witness :
    ((calculate_consensus wTable (1/1000000000) csW).aligned ++
        (calculate_consensus wTable (1/1000000000) csW).conflicting).Perm
      (csW.map CTimeframeState.timeframe) ∧
    (calculate_consensus wTable (1/1000000000) csW).aligned.Nodup ∧
    (calculate_consensus wTable (1/1000000000) csW).conflicting.Nodup ∧
    ∀ tf, tf ∈ (calculate_consensus wTable (1/1000000000) csW).aligned →
      tf ∉ (calculate_consensus wTable (1/1000000000) csW).conflicting :=
  C5_prop wTable (1/1000000000) csW (by decide)

/-- Claim C6 is false on the code: for direction LONG with entry 100 and stop 105 the risk engine raises nothing and silently returns the defaulted metrics with zero ratio and zero position. -/
theorem C6_counterexample :
    (calculate_risk_metrics 100 105 110 "LONG" (1/2) 10000 (2/100)).risk_reward = 0 ∧
    (calculate_risk_metrics 100 105 110 "LONG" (1/2) 10000 (2/100)).position_size = 0 ∧
    (calculate_risk_metrics 100 105 110 "LONG" (1/2) 10000 (2/100)).max_loss = 200 := by
  norm_num [calculate_risk_metrics]

/-- Claim C6 amended: whenever the stop is on the wrong side of the entry for the stated direction, or entry equals stop, calculate_risk_metrics returns a defaulted result with zero risk-reward ratio and zero position size instead of signalling an error. -/
theorem C6_prop (e st t wr bal rpt : ℚ) :
    (e ≤ st →
      (calculate_risk_metrics e st t "LONG" wr bal rpt).risk_reward = 0 ∧
      (calculate_risk_metrics e st t "LONG" wr bal rpt).position_size = 0) ∧
    (st ≤ e →
      (calculate_risk_metrics e st t "SHORT" wr bal rpt).risk_reward = 0 ∧
      (calculate_risk_metrics e st t "SHORT" wr bal rpt).position_size = 0) := by
  constructor
  · intro h
    have hr : ¬(0 < e - st) := by linarith
    simp [calculate_risk_metrics, hr]
  · intro h
    have hr : ¬(0 < st - e) := by linarith
    simp [calculate_risk_metrics, hr]

/-- Witness for the amended claim C6 at entry equal to stop. -/
theorem C6_witness :
    (calculate_risk_metrics 100 100 120 "LONG" (1/2) 10000 (2/100)).risk_reward = 0 ∧
    (calculate_risk_metrics 100 100 120 "LONG" (1/2) 10000 (2/100)).position_size = 0 :=
  (C6_prop 100 100 120 (1/2) 10000 (2/100)).1 (by norm_num)

/-- Claim C7 is false on the code: with the stop on the correct side for LONG the computed ratio is the signed value minus two when the target lies below the entry, not the absolute ratio two. -/
theorem C7_counterexample :
    (95 : ℚ) < 100 ∧
    (calculate_risk_metrics 100 95 90 "LONG" (1/2) 10000 (2/100)).risk_reward = -2 ∧
    |(90 : ℚ) - 100| / |(100 : ℚ) - 95| = 2 ∧ (-2 : ℚ) ≠ 2 := by
  refine ⟨by norm_num, by norm_num [calculate_risk_metrics], by norm_num, by norm_num⟩

/-- Claim C7 amended: when the stop is on the correct side and the target on the profitable side, the computed risk-reward ratio equals the absolute ratio of target distance to stop distance, the helper additionally rounding to two decimals. -/
theorem C7_prop (e st t wr bal rpt : ℚ) :
    (st < e → e ≤ t →
      (calculate_risk_metrics e st t "LONG" wr bal rpt).risk_reward =
        |t - e| / |e - st| ∧
      calculate_risk_reward e st t "LONG" = pyRound2 (|t - e| / |e - st|)) ∧
    (e < st → t ≤ e →
      (calculate_risk_metrics e st t "SHORT" wr bal rpt).risk_reward =
        |t - e| / |e - st| ∧
      calculate_risk_reward e st t "SHORT" = pyRound2 (|t - e| / |e - st|)) := by
  constructor
  · intro h1 h2
    have hr : 0 < e - st := by linarith
    have ha1 : |t - e| = t - e := abs_of_nonneg (by linarith)
    have ha2 : |e - st| = e - st := abs_of_pos hr
    constructor
    · simp [calculate_risk_metrics, hr, ha1, ha2]
    · simp [calculate_risk_reward, hr, ha1, ha2]
  · intro h1 h2
    have hr : 0 < st - e := by linarith
    have ha1 : |t - e| = e - t := by
      rw [abs_of_nonpos (by linarith)]
      ring
    have ha2 : |e - st| = st - e := by
      rw [abs_of_neg (by linarith)]
      ring
    constructor
    · simp [calculate_risk_metrics, hr, ha1, ha2]
    · simp [calculate_risk_reward, hr, ha1, ha2]

/-- Witness for the amended claim C7 at entry 100, stop 95, target 110, where the ratio is exactly two. -/
theorem C7_witness :
    (calculate_risk_metrics 100 95 110 "LONG" (1/2) 10000 (2/100)).risk_reward =
      |(110 : ℚ) - 100| / |(100 : ℚ) - 95| ∧
    calculate_risk_reward 100 95 110 "LONG" =
      pyRound2 (|(110 : ℚ) - 100| / |(100 : ℚ) - 95|) ∧
    (calculate_risk_metrics 100 95 110 "LONG" (1/2) 10000 (2/100)).risk_reward = 2 := by
  have h := (C7_prop 100 95 110 (1/2) 10000 (2/100)).1 (by norm_num) (by norm_num)
  refine ⟨h.1, h.2, by norm_num [calculate_risk_metrics]⟩

/-- Claim C8: the Kelly fraction is p times b minus the loss probability, over b, and the adjusted fraction clamps the negative part at zero and applies the fixed conservative multiplier; at p of six tenths and b of two they are two fifths and eight twenty-fifths. -/
theorem C8_prop (p b : ℚ) :
    0 ≤ kelly_fraction_adjusted p b ∧
    (kelly_fraction p b < 0 → kelly_fraction_adjusted p b = 0) ∧
    (0 ≤ kelly_fraction p b →
      kelly_fraction_adjusted p b = kelly_fraction p b * (8/10)) ∧
    kelly_fraction (6/10) 2 = 2/5 ∧ kelly_fraction_adjusted (6/10) 2 = 8/25 := by
  refine ⟨?_, ?_, ?_, ?_, ?_⟩
  · exact mul_nonneg (le_max_left 0 _) (by norm_num)
  · intro h
    unfold kelly_fraction_adjusted
    rw [max_eq_left (le_of_lt h)]
    ring
  · intro h
    unfold kelly_fraction_adjusted
    rw [max_eq_right h]
  · norm_num [kelly_fraction]
  · norm_num [kelly_fraction_adjusted, kelly_fraction]

/-- Witness for claim C8 at a negative raw Kelly fraction, clamped to zero. -/
theorem C8_witness : kelly_fraction_adjusted 0 1 = 0 :=
  (C8_prop 0 1).2.1 (by norm_num [kelly_fraction])

/-- Claim C9 is false on the code: two states differing only in marketStructure and signalConfidence produce identical save-then-read results, so those documented fields are not preserved by the storage round trip. -/
theorem C9_counterexample :
    ({ stBase with signalConfidence := some 50, marketStructure := some "RANGE" }
        : StateIn) ≠ stBase ∧
    roundTrip "BTC/USDT" "1h" 0
        { stBase with signalConfidence := some 50, marketStructure := some "RANGE" } =
      roundTrip "BTC/USDT" "1h" 0 stBase := by
  constructor
  · intro h
    have h2 := congrArg StateIn.signalConfidence h
    simp [stBase] at h2
  · rfl

/-- Claim C9 amended: the save-then-read round trip preserves the persisted documented fields, with a provided positive risk-reward kept verbatim, a truthy action plan restored from its JSON column, and absent probability fields reading back as the stored defaults; marketStructure and signalConfidence are absent from the read state. -/
theorem C9_prop (sym tf : String) (now : Int) (s : StateIn)
    (hrr : 0 < s.activeNarrative.risk_reward.getD 0)
    (hap : savedActionPlan s.actionPlan = s.actionPlan) :
    (roundTrip sym tf now s).symbol = sym ∧
    (roundTrip sym tf now s).timeframe = tf ∧
    (roundTrip sym tf now s).marketCycle = s.marketCycle ∧
    (roundTrip sym tf now s).activeNarrative.pattern_name =
      s.activeNarrative.pattern_name ∧
    (roundTrip sym tf now s).activeNarrative.status = s.activeNarrative.status ∧
    (roundTrip sym tf now s).activeNarrative.key_levels =
      s.activeNarrative.key_levels ∧
    (roundTrip sym tf now s).activeNarrative.comment = s.activeNarrative.comment ∧
    (roundTrip sym tf now s).activeNarrative.probability =
      s.activeNarrative.probability.getD "" ∧
    (roundTrip sym tf now s).activeNarrative.probability_value =
      s.activeNarrative.probability_value.getD 0 ∧
    (roundTrip sym tf now s).activeNarrative.risk_reward =
      s.activeNarrative.risk_reward.getD 0 ∧
    (roundTrip sym tf now s).alternativeNarrative = s.alternativeNarrative ∧
    (roundTrip sym tf now s).actionPlan = s.actionPlan ∧
    (roundTrip sym tf now s).analysis_text = s.analysis_text ∧
    (roundTrip sym tf now s).raw_response = s.raw_response ∧
    (roundTrip sym tf now s).last_updated = s.last_updated.getD now := by
  unfold roundTrip get_state save_state savedRiskReward
  simp [hrr, hap]

/-- Witness for the amended claim C9 at a concrete fully populated state. -/
theorem C9_witness :
    (roundTrip "BTC/USDT" "1h" 0 stBase).actionPlan = stBase.actionPlan ∧
    (roundTrip "BTC/USDT" "1h" 0 stBase).activeNarrative.risk_reward =
      stBase.activeNarrative.risk_reward.getD 0 := by
  have h := C9_prop "BTC/USDT" "1h" 0 stBase (by norm_num [stBase]) rfl
  exact ⟨h.2.2.2.2.2.2.2.2.2.2.2.1, h.2.2.2.2.2.2.2.2.2.1⟩

/-- Claim C10 is false on the code: the token 500 is numeric and lies in the price-plausible range yet is not returned, because the regex only matches runs of four to eight digits. -/
theorem C10_counterexample :
    extract_prices "price 500 target" = [] ∧ (100 : ℚ) ≤ 500 ∧ (500 : ℚ) ≤ 10000000 :=
  ⟨rfl, by norm_num, by norm_num⟩

/-- Claim C10 amended: price extraction returns exactly the values of the four-to-eight-digit tokens found after comma removal whose value lies between one hundred and ten million, deduplicated and sorted strictly ascending. -/
theorem C10_prop (s : String) :
    (extract_prices s).Sorted (· < ·) ∧ (extract_prices s).Nodup ∧
    ∀ v : ℚ, v ∈ extract_prices s ↔
      ∃ tk ∈ pyTokens (stripCommas s.data),
        (digitsVal tk : ℚ) = v ∧ 100 ≤ digitsVal tk ∧ digitsVal tk ≤ 10000000 := by
  refine ⟨sorted_pySortedSet _, (sorted_pySortedSet _).nodup, ?_⟩
  intro v
  rw [show extract_prices s = pySortedSet (priceCandidates s) from rfl,
      mem_pySortedSet]
  unfold priceCandidates
  rw [List.mem_filterMap]
  constructor
  · rintro ⟨tk, htk, hv⟩
    dsimp only at hv
    split_ifs at hv with hc
    simp at hv
    exact ⟨tk, htk, hv, hc.1, hc.2⟩
  · rintro ⟨tk, htk, hv, h1, h2⟩
    refine ⟨tk, htk, ?_⟩
    dsimp only
    rw [if_pos ⟨h1, h2⟩, hv]

end PA
